import Mathlib

/-!
Verification of the retrieval-ranking / confidence-gating core of the
paragrafen-ai pipeline, as a shallow embedding in Lean 4.

Embedding conventions:
* Python floats are modelled as exact rationals (`ℚ`).  All float constants
  appearing in the guard/reranker (1.0, 0.7, 0.6, 0.4, 0.5, 0.3, 0.2, 0.15,
  0.1) and every value reachable from them by the code's arithmetic are
  exactly representable, and the 4-decimal rounding in the confidence gate
  never meets a tie, so rational arithmetic agrees with the source's float
  arithmetic on every reachable value.
* Python `int(n * 1.3)` is modelled as `13 * n / 10` (natural floor
  division): for every word count `n` up to 10^13 the double product
  `n * 1.3` lies strictly between `13n/10` and the next integer boundary,
  so truncation agrees with the exact floor.
* Text is modelled at word granularity (`List String`): the chunker's token
  estimator and all of its size decisions depend on a text only through its
  whitespace word count, and joining texts with "\n\n" or "\n" adds word
  counts, which is list append on word lists.
* Python's `str.lower` / `str.strip` / `\w` are modelled for the ASCII and
  Swedish (å ä ö) alphabet actually used by the configuration and queries.
* Missing or non-string / non-numeric metadata entries are modelled as
  `Option.none`; the source collapses every such value to the same default
  that the embedding uses.
-/

/-- Stable insertion sort with a boolean `le`, modelling Python's stable
`sort` / `sorted`.  `x` is inserted before the first element `y` with
`le x y`. -/
def insertSorted {α : Type} (le : α → α → Bool) (x : α) : List α → List α
  | [] => [x]
  | y :: ys => if le x y then x :: y :: ys else y :: insertSorted le x ys

/-- Stable insertion sort (Python `sorted`). -/
def insertionSort {α : Type} (le : α → α → Bool) : List α → List α
  | [] => []
  | x :: xs => insertSorted le x (insertionSort le xs)

/-- Order-preserving de-duplication, modelling Python `dict.fromkeys`. -/
def dedupKeepFirst : List String → List String
  | [] => []
  | x :: xs =>
      x :: (dedupKeepFirst xs).filter (fun y => y ≠ x)

/-- Model of Python `str.lower` for the characters used by this
configuration (ASCII letters plus Swedish å ä ö). -/
def lowerChar (c : Char) : Char :=
  if c = 'Å' then 'å' else if c = 'Ä' then 'ä' else if c = 'Ö' then 'ö'
  else c.toLower

/-- Lowercase a string character-wise (Python `str.lower`). -/
def lowerStr (s : String) : String :=
  String.mk (s.toList.map lowerChar)

/-- Model of the regex word class `\w` for the alphabet in use:
ASCII alphanumerics, underscore, and Swedish letters. -/
def isWordChar (c : Char) : Bool :=
  c.isAlphanum || c = '_' || c = 'å' || c = 'ä' || c = 'ö' ||
  c = 'Å' || c = 'Ä' || c = 'Ö'

/-- Python `pat in s` (substring containment) on character lists. -/
def containsSub (pat : List Char) : List Char → Bool
  | [] => pat.isEmpty
  | c :: rest => pat.isPrefixOf (c :: rest) || containsSub pat rest

/-- The part of `s` before the first occurrence of `pat`
(Python `s.split(pat, 1)[0]` when `pat` occurs in `s`, else all of `s`). -/
def takeBeforeFirst (pat : List Char) : List Char → List Char
  | [] => []
  | c :: rest =>
      if pat.isPrefixOf (c :: rest) then [] else c :: takeBeforeFirst pat rest

/-- Whitespace test for the ends of a string (Python `str.strip`). -/
def isSpaceChar (c : Char) : Bool :=
  c = ' ' || c = '\t' || c = '\n' || c = '\r'

/-- Model of Python `str.strip`: drop whitespace from both ends. -/
def stripStr (s : String) : String :=
  String.mk
    (((s.toList.dropWhile isSpaceChar).reverse.dropWhile isSpaceChar).reverse)

/-- Zero-pad a natural number to at least three digits
(Python format spec `{:03d}`). -/
def pad3 (n : Nat) : String :=
  let s := toString n
  if s.length < 3 then String.mk (List.replicate (3 - s.length) '0') ++ s else s

/-- A retrieved chunk as both `NormBoost.rerank` and `ConfidenceGate.evaluate`
see it: a dict with a `metadata` sub-dict.  Only the metadata entries the two
components read are modelled; a missing entry (or one of the wrong runtime
type, which the source collapses to the same default) is `none`. -/
structure RChunk where
  id : String := ""
  text : String := ""
  authority_level : Option String := none
  source_type : Option String := none
  distance : Option ℚ := none
  norm_score : Option ℚ := none
  deriving Repr, DecidableEq

namespace NormBoost

/-- The authority weight table of `index/norm_boost.py` (note: it has no
entry for "preparatory"). -/
def AUTHORITY_WEIGHTS (level : String) : Option ℚ :=
  if level = "binding" then some 1
  else if level = "guiding" then some (7/10)
  else if level = "persuasive" then some (2/5)
  else none

/-- The effective authority level after the fallback
`if authority_level not in AUTHORITY_WEIGHTS: authority_level = "persuasive"`. -/
def effectiveAuthority (level : Option String) : String :=
  match level with
  | none => "persuasive"
  | some a => if (AUTHORITY_WEIGHTS a).isSome then a else "persuasive"

/-- `NormBoost._relevance_weight`: `1.0 - clamp(distance, 0, 1)`;
missing / non-numeric distance gives the neutral 0.5. -/
def _relevance_weight (distance : Option ℚ) : ℚ :=
  match distance with
  | none => 1/2
  | some d => 1 - (if d < 0 then 0 else if 1 < d then 1 else d)

/-- `NormBoost._authority_rank`: binding 0, guiding 1, anything else 2. -/
def _authority_rank (level : String) : Nat :=
  if level = "binding" then 0 else if level = "guiding" then 1 else 2

/-- A decorated sort entry `(norm_score, authority_rank, original index, chunk)`. -/
structure Decorated where
  score : ℚ
  rank : Nat
  idx : Nat
  chunk : RChunk
  deriving Repr, DecidableEq

/-- The sort key `(-norm_score, authority_rank, idx)` as a boolean `le`. -/
def decoratedLe (a b : Decorated) : Bool :=
  decide (b.score < a.score ∨ (a.score = b.score ∧
    (a.rank < b.rank ∨ (a.rank = b.rank ∧ a.idx ≤ b.idx))))

/-- `NormBoost.rerank`: decorate with `(norm_score, rank, idx)`, sort, and
return copies of the chunks carrying `norm_score`. -/
def rerank (chunks : List RChunk) : List RChunk :=
  if chunks = [] then []
  else
    let decorated := chunks.enum.map (fun e =>
      let idx := e.fst
      let chunk := e.snd
      let authority_level := effectiveAuthority chunk.authority_level
      let authority_weight := (AUTHORITY_WEIGHTS authority_level).getD (2/5)
      let relevance_weight := _relevance_weight chunk.distance
      let norm_score := authority_weight * relevance_weight
      Decorated.mk norm_score (_authority_rank authority_level) idx
        { chunk with norm_score := some norm_score })
    (insertionSort decoratedLe decorated).map (fun d => d.chunk)

end NormBoost

namespace ConfidenceGate

def pass_threshold : ℚ := 1/2
def only_persuasive_penalty : ℚ := 3/10
def conflicting_authority_penalty : ℚ := 1/5
def sparse_results_penalty : ℚ := 3/20
def single_source_type_penalty : ℚ := 1/10
def conflict_distance_threshold : ℚ := 1/5
def default_distance : ℚ := 1/2

/-- `ConfidenceGate._get_distance`: metadata distance, defaulting to 0.5. -/
def _get_distance (chunk : RChunk) : ℚ :=
  chunk.distance.getD default_distance

/-- `ConfidenceGate._get_authority_level`: strip + lowercase, with
"persuasive" as the default for missing / blank / non-string values. -/
def _get_authority_level (chunk : RChunk) : String :=
  match chunk.authority_level with
  | none => "persuasive"
  | some s =>
      let t := lowerStr (stripStr s)
      if t = "" then "persuasive" else t

/-- `ConfidenceGate._get_source_type`: strip + lowercase, defaulting to
"unknown". -/
def _get_source_type (chunk : RChunk) : String :=
  match chunk.source_type with
  | none => "unknown"
  | some s =>
      let t := lowerStr (stripStr s)
      if t = "" then "unknown" else t

/-- The low-distance chunk selection inside
`ConfidenceGate._has_conflicting_authority`: sort by distance, keep the
chunks within the configured threshold. -/
def lowDistanceChunks (chunks : List RChunk) : List RChunk :=
  (insertionSort (fun a b => decide (_get_distance a ≤ _get_distance b))
      chunks).filter
    (fun c => decide (_get_distance c ≤ conflict_distance_threshold))

/-- `ConfidenceGate._has_conflicting_authority`: among the chunks within the
low-distance threshold (of the distance-sorted list), both a "binding" and a
"guiding" authority level appear. -/
def _has_conflicting_authority (chunks : List RChunk) : Bool :=
  let low_distance_chunks := lowDistanceChunks chunks
  if low_distance_chunks = [] then false
  else
    let levels := low_distance_chunks.map _get_authority_level
    levels.contains "binding" && levels.contains "guiding"

/-- Trigger of the `only_persuasive` penalty
(`authority_levels and all(level == "persuasive" ...)`). -/
def only_persuasive_trigger (chunks : List RChunk) : Bool :=
  !chunks.isEmpty && (chunks.map _get_authority_level).all (· == "persuasive")

/-- Trigger of the `sparse_results` penalty (`len(chunks) < 2`). -/
def sparse_results_trigger (chunks : List RChunk) : Bool :=
  chunks.length < 2

/-- Trigger of the `single_source_type` penalty
(`source_types and len(set(source_types)) == 1`). -/
def single_source_type_trigger (chunks : List RChunk) : Bool :=
  !chunks.isEmpty && (chunks.map _get_source_type).dedup.length == 1

/-- `ConfidenceGate._build_reason`. -/
def _build_reason (flags : List String) : String :=
  if flags = [] then "Confidence below threshold."
  else "Confidence below threshold due to: " ++ String.intercalate ", " flags

/-- Python `round(x, 4)`: 4-decimal rounding.  (Rational round-half-up; no
value reachable from the gate's arithmetic is a tie at this precision, and
none is affected by binary floating-point noise after 4-decimal rounding.) -/
def round4 (q : ℚ) : ℚ :=
  (round (q * 10000) : ℚ) / 10000

/-- The result dict of `ConfidenceGate.evaluate`. -/
structure GateResult where
  pass : Bool
  score : ℚ
  reason : Option String
  flags : List String
  deriving Repr, DecidableEq

/-- `ConfidenceGate.evaluate`.  The four penalties are subtracted in source
order; the flag list accumulates in the same order. -/
def evaluate (chunks : Option (List RChunk)) : GateResult :=
  let normalized_chunks := chunks.getD []
  if normalized_chunks = [] then
    ⟨false, 0, some "No retrieval results.", ["no_results"]⟩
  else
    let t1 := only_persuasive_trigger normalized_chunks
    let t2 := _has_conflicting_authority normalized_chunks
    let t3 := sparse_results_trigger normalized_chunks
    let t4 := single_source_type_trigger normalized_chunks
    let flags :=
      (if t1 then ["only_persuasive"] else []) ++
      (if t2 then ["conflicting_authority"] else []) ++
      (if t3 then ["sparse_results"] else []) ++
      (if t4 then ["single_source_type"] else [])
    let score0 : ℚ := 1
    let score1 := if t1 then score0 - only_persuasive_penalty else score0
    let score2 := if t2 then score1 - conflicting_authority_penalty else score1
    let score3 := if t3 then score2 - sparse_results_penalty else score2
    let score4 := if t4 then score3 - single_source_type_penalty else score3
    let score := max 0 (round4 score4)
    let passed := decide (pass_threshold ≤ score)
    let reason := if passed then none else some (_build_reason flags)
    ⟨passed, score, reason, flags⟩

end ConfidenceGate

namespace AreaBlocker

/-- An excluded-area configuration entry (`guard/area_blocker.py`). -/
structure Area where
  id : String
  label : String
  message : String
  keywords : Option (List String) := none
  sfs_patterns : List String := []
  deriving Repr, DecidableEq

/-- `_normalize_area_id`: lowercase, fold å ä → a and ö → o, drop spaces. -/
def _normalize_area_id (area_id : String) : String :=
  String.mk (((area_id.toList.map lowerChar).map (fun c =>
    if c = 'å' then 'a' else if c = 'ä' then 'a' else if c = 'ö' then 'o'
    else c)).filter (fun c => c ≠ ' '))

/-- The built-in keyword lists (`BUILT_IN_KEYWORDS`), keyed by normalized
area id. -/
def BUILT_IN_KEYWORDS (area_id : String) : List String :=
  if area_id = "straffratt" then
    ["brott", "brottslig", "straff", "fängelse", "åtal", "åklagare",
     "häkte", "häktad", "dom", "dömdes", "stöld", "rån", "mord",
     "misshandel", "bedrägeri", "narkotika", "rattfylleri", "brottsbalken"]
  else if area_id = "asyl" then
    ["asyl", "asylansökan", "flyktingstatus", "uppehållstillstånd", "ut",
     "utvisning", "avvisning", "migrationsverket", "migrationsdomstol",
     "flykting", "skyddsstatus"]
  else if area_id = "skatteratt" then
    ["skatt", "inkomstskatt", "moms", "mervärdesskatt", "skattedeklaration",
     "skatteverket", "skattebrott", "f-skatt", "deklaration"]
  else if area_id = "vbu" then
    ["vårdnad", "umgänge", "boende", "ensam vårdnad", "gemensam vårdnad",
     "umgängesrätt", "barnets bästa", "socialnämnden"]
  else []

/-- The built-in fallback areas (`BUILT_IN_AREAS`); they carry no explicit
keyword lists, so keyword terms come from `BUILT_IN_KEYWORDS`. -/
def BUILT_IN_AREAS : List Area :=
  [ { id := "straffrätt", label := "Straffrätt",
      sfs_patterns := ["1962:700", "2010:1408"],
      message := "Denna tjänst täcker inte straffrättsliga frågor. Kontakta en advokat eller rättshjälpen." },
    { id := "asyl", label := "Asylrätt och migration",
      sfs_patterns := ["2005:716", "2016:752"],
      message := "Asylrättsliga frågor kräver juridiskt ombud. Kontakta Advokatjouren eller Rådgivningsbyrån för asylsökande." },
    { id := "skatterätt", label := "Skatterätt",
      sfs_patterns := ["1999:1229"],
      message := "För skattefrågor, kontakta Skatteverket eller en skatterådgivare." },
    { id := "vbu", label := "Vårdnad, boende och umgänge",
      sfs_patterns := ["1949:381_kap6"],
      message := "Tvister om vårdnad, boende och umgänge kräver juridiskt ombud. Kontakta familjerätten i din kommun." } ]

/-- `_build_terms_for_area`: explicit keywords, else the built-in list for
the normalized id, else label/id; then drop terms shorter than 3 characters
(stripped), lowercase, and de-duplicate preserving order. -/
def _build_terms_for_area (area : Area) : List String :=
  let terms0 :=
    match area.keywords with
    | some ks => (ks.map stripStr).filter (fun t => t ≠ "")
    | none => []
  let terms1 :=
    if terms0 = [] then BUILT_IN_KEYWORDS (_normalize_area_id area.id)
    else terms0
  let terms2 :=
    if terms1 = [] then
      (if stripStr area.label ≠ "" then [area.label] else []) ++
      (if stripStr area.id ≠ "" then [area.id] else [])
    else terms1
  dedupKeepFirst
    ((terms2.filter (fun t => t ≠ "" ∧ 3 ≤ (stripStr t).length)).map lowerStr)

/-- Case-insensitive match of `term` at the start of `s`, with a trailing
word boundary (`\b` after the alternative). -/
def matchesAt (term : List Char) (s : List Char) : Bool :=
  term.isPrefixOf (s.map lowerChar) &&
    (match s.drop term.length with
     | [] => true
     | c :: _ => !isWordChar c)

/-- Case-insensitive whole-word search of `term` in `s` (`prev` is the
character just before the current position, for the leading `\b`). -/
def wordSearchFrom (term : List Char) (prev : Option Char) : List Char → Bool
  | [] => (match prev with | none => true | some p => !isWordChar p) &&
      matchesAt term []
  | c :: rest =>
      ((match prev with | none => true | some p => !isWordChar p) &&
        matchesAt term (c :: rest)) ||
      wordSearchFrom term (some c) rest

/-- Regex search `\b(?:term1|...|termN)\b` with `re.IGNORECASE`: does any of
the (already lowercased) terms occur in `query` as a whole word? -/
def keywordSearch (terms : List String) (query : String) : Bool :=
  terms.any (fun t => wordSearchFrom t.toList none query.toList)

/-- `_get_message`: the configured message, or the generic fallback when it
is missing/blank. -/
def _get_message (area : Area) : String :=
  if stripStr area.message ≠ "" then area.message
  else "Denna fråga täcks inte av tjänsten."

/-- `AreaBlocker.is_blocked`: first area (in configured order) whose keyword
pattern matches the query wins; areas without any usable term are skipped.
Returns the Python tuple `(blocked, message-or-None)`. -/
def is_blocked (areas : List Area) (query : String) : Bool × Option String :=
  if query = "" then (false, none)
  else
    match areas.find? (fun area =>
      let terms := _build_terms_for_area area
      !terms.isEmpty && keywordSearch terms query) with
    | some area => (true, some (_get_message area))
    | none => (false, none)

/-- The characters of the chapter-suffix marker `"_kap"`. -/
def kapChars : List Char := ['_', 'k', 'a', 'p']

/-- `_iter_sfs_patterns`: stripped, non-empty patterns of an area. -/
def _iter_sfs_patterns (area : Area) : List String :=
  (area.sfs_patterns.map stripStr).filter (fun p => p ≠ "")

/-- One iteration of the pattern loop in `AreaBlocker.is_sfs_blocked`, for an
already-normalized query `normalized_sfs` against one configured pattern. -/
def sfsPatternMatches (normalized_sfs : List Char) (pattern : String) : Bool :=
  let normalized_pattern := (lowerStr pattern).toList
  if containsSub kapChars normalized_pattern then
    let base_pattern := takeBeforeFirst kapChars normalized_pattern
    (normalized_sfs == normalized_pattern) ||
      (containsSub kapChars normalized_sfs &&
        (base_pattern ++ kapChars).isPrefixOf normalized_sfs)
  else
    normalized_sfs == normalized_pattern

/-- `AreaBlocker.is_sfs_blocked`: first area with a matching SFS pattern
wins.  Returns the Python tuple `(blocked, message-or-None)`. -/
def is_sfs_blocked (areas : List Area) (sfs_nr : String) : Bool × Option String :=
  if sfs_nr = "" then (false, none)
  else
    let normalized_sfs := (lowerStr (stripStr sfs_nr)).toList
    match areas.find? (fun area =>
      (_iter_sfs_patterns area).any (sfsPatternMatches normalized_sfs)) with
    | some area => (true, some (_get_message area))
    | none => (false, none)

end AreaBlocker

/-- A parsed SFS paragraph as `chunk_paragraphs` consumes it.  Text and
stycken are modelled at word granularity (see the header note); metadata
passthrough fields that the chunker copies verbatim from `meta` and that no
claim depends on are omitted. -/
structure Para where
  kapitel : String := ""
  kapitelrubrik : String := ""
  paragraf : String := ""
  paragraf_rubrik : String := ""
  stycken : List (List String) := []
  text : List String := []
  is_definition : Bool := false
  is_overgangsbestammelse : Bool := false
  has_table : Bool := false
  numbering_type : String := "sequential"
  deriving Repr, DecidableEq

/-- An output chunk of `chunk_paragraphs` (word-granular text; the fields
copied verbatim from `meta` are omitted). -/
structure SChunk where
  namespaceStr : String
  sfs_nr : String
  kapitel : String
  paragraf : String
  stycke : String
  authority_level : String
  numbering_type : String
  is_overgangsbestammelse : Bool
  is_definition : Bool
  has_table : Bool
  chunk_index : Nat
  chunk_total : Nat
  text : List String
  deriving Repr, DecidableEq

def MIN_TOKENS : Nat := 100

def MAX_TOKENS : Nat := 800

/-- `_approx_tokens`: Python `int(len(text.split()) * 1.3)`, i.e. the word
count times 1.3 truncated towards zero, which is `13 * words / 10` exactly
(see the header note on floating point). -/
def _approx_tokens (words : List String) : Nat :=
  13 * words.length / 10

/-- `_make_namespace` of `normalize/sfs_chunker.py`.  For sequential
numbering (or an empty chapter) the chapter segment is the literal "0kap". -/
def _make_namespace (sfs_nr kapitel paragraf numbering_type : String)
    (chunk_idx : Nat) : String :=
  let kap_str :=
    if numbering_type = "relative" ∧ kapitel ≠ "" then kapitel ++ "kap"
    else "0kap"
  "sfs::" ++ sfs_nr ++ "_" ++ kap_str ++ "_" ++ paragraf ++ "§_chunk_" ++
    pad3 chunk_idx

/-- Python `paragraf.replace(" ", "")`. -/
def removeSpaces (s : String) : String :=
  String.mk (s.toList.filter (fun c => c ≠ ' '))

/-- `_make_chunk`: build a full chunk record for one piece of text taken
from paragraph `para`. -/
def _make_chunk (sfs_nr : String) (para : Para) (text : List String)
    (stycke : String) (chunk_idx chunk_total : Nat) : SChunk :=
  { namespaceStr := _make_namespace sfs_nr para.kapitel
      (removeSpaces para.paragraf) para.numbering_type chunk_idx
    sfs_nr := sfs_nr
    kapitel := para.kapitel
    paragraf := para.paragraf
    stycke := stycke
    authority_level := "binding"
    numbering_type := para.numbering_type
    is_overgangsbestammelse := para.is_overgangsbestammelse
    is_definition := para.is_definition
    has_table := para.has_table
    chunk_index := chunk_idx
    chunk_total := chunk_total
    text := text }

/-- Result of the inner merge loop of `chunk_paragraphs`: the accumulated
words, the number of following paragraphs consumed (`j - (i+1)`), and the
label of the last merged paragraph. -/
structure MergeOut where
  words : List String
  consumed : Nat
  lastLabel : String
  deriving Repr, DecidableEq

/-- The merge loop (`while j < len(paragraphs) and _approx_tokens(merged_text)
< MIN_TOKENS`): greedily absorb following paragraphs of the same chapter that
are not definitions, as long as the merged size stays within `MAX_TOKENS`. -/
def mergeScan (merged : List String) (kapitel : String) :
    List Para → MergeOut
  | [] => ⟨merged, 0, ""⟩
  | next_para :: rest =>
      if _approx_tokens merged < MIN_TOKENS then
        let would_be := _approx_tokens (merged ++ next_para.text)
        if next_para.kapitel = kapitel ∧ next_para.is_definition = false ∧
            would_be ≤ MAX_TOKENS then
          let r := mergeScan (merged ++ next_para.text) kapitel rest
          ⟨r.words, r.consumed + 1,
            if r.consumed = 0 then next_para.paragraf else r.lastLabel⟩
        else ⟨merged, 0, ""⟩
      else ⟨merged, 0, ""⟩

/-- The oversized-paragraph branch of `chunk_paragraphs`: pack consecutive
stycken while the running sum of their individual token estimates stays
within `MAX_TOKENS`, flushing the current run when the next stycke would
exceed it. -/
def packStycken (stycken : List (List String)) :
    List (List (List String)) :=
  let acc := stycken.foldl
    (fun (acc : List (List (List String)) × List (List String) × Nat) stycke =>
      let subs := acc.1
      let current_parts := acc.2.1
      let current_tokens := acc.2.2
      let st_tokens := _approx_tokens stycke
      if MAX_TOKENS < current_tokens + st_tokens ∧ current_parts ≠ [] then
        (subs ++ [current_parts], ([stycke], st_tokens))
      else (subs, (current_parts ++ [stycke], current_tokens + st_tokens)))
    ([], ([], 0))
  if acc.2.1 ≠ [] then acc.1 ++ [acc.2.1] else acc.1

/-- The chunks emitted for one oversized paragraph (split on stycke
boundaries; `stycke` is numbered only when there is more than one chunk). -/
def splitPara (sfs_nr : String) (para : Para) : List SChunk :=
  let stycken := if para.stycken = [] then [para.text] else para.stycken
  let sub_chunks := (packStycken stycken).map (fun parts => parts.flatten)
  let chunk_total := sub_chunks.length
  sub_chunks.enum.map (fun e =>
    _make_chunk sfs_nr para e.snd
      (if 1 < chunk_total then toString (e.fst + 1) else "") e.fst chunk_total)

/-- The body of the `while i < len(paragraphs)` loop of `chunk_paragraphs`,
with explicit fuel (each iteration consumes at least one paragraph, so
`fuel = paragraphs.length` suffices; fuel keeps the recursion structural). -/
def chunkGo (sfs_nr : String) : Nat → List Para → List SChunk
  | 0, _ => []
  | _, [] => []
  | Nat.succ fuel, para :: rest =>
      let text := para.text
      let tokens := _approx_tokens text
      if para.is_definition then
        _make_chunk sfs_nr para text "" 0 1 :: chunkGo sfs_nr fuel rest
      else
        let mergeResult : Option (List String × Nat × String) :=
          if tokens < MIN_TOKENS ∧ para.is_overgangsbestammelse = false then
            let m := mergeScan text para.kapitel rest
            if 0 < m.consumed then some (m.words, m.consumed, m.lastLabel)
            else none
          else none
        match mergeResult with
        | some (merged_text, consumed, lastLabel) =>
            let base := _make_chunk sfs_nr para merged_text "" 0 1
            let rangeLabel := para.paragraf ++ "-" ++ lastLabel
            let rangeNs := _make_namespace sfs_nr para.kapitel rangeLabel
              para.numbering_type 0
            { base with paragraf := rangeLabel, namespaceStr := rangeNs } ::
              chunkGo sfs_nr fuel (rest.drop consumed)
        | none =>
            if tokens ≤ MAX_TOKENS then
              _make_chunk sfs_nr para text "" 0 1 :: chunkGo sfs_nr fuel rest
            else
              splitPara sfs_nr para ++ chunkGo sfs_nr fuel rest

/-- `chunk_paragraphs` of `normalize/sfs_chunker.py`. -/
def chunk_paragraphs (paragraphs : List Para) (sfs_nr : String) :
    List SChunk :=
  chunkGo sfs_nr paragraphs.length paragraphs

/-- Dict lookup `chapters.get(k, [])` on an association list of chapter
number to observed paragraph numbers. -/
def chaptersGet (chapters : List (Nat × List Nat)) (k : Nat) : List Nat :=
  match chapters.find? (fun e => e.fst = k) with
  | some e => e.snd
  | none => []

/-- Ascending sort of naturals (Python `sorted`). -/
def sortNat (l : List Nat) : List Nat :=
  insertionSort (fun a b => decide (a ≤ b)) l

/-- The rule-2/3 scan of `detect_numbering_type`: walk the sorted chapter
numbers, skip chapters `≤ 1` and chapters with no paragraphs, and decide on
the first remaining one by whether its smallest paragraph number is 1. -/
def kScan (chapters : List (Nat × List Nat)) : List Nat → Option Bool
  | [] => none
  | k_nr :: ks =>
      if k_nr ≤ 1 then kScan chapters ks
      else
        match sortNat (chaptersGet chapters k_nr) with
        | [] => kScan chapters ks
        | p1 :: _ => some (p1 = 1)

/-- `detect_numbering_type` of `normalize/sfs_parser.py`, with the
configured single-chapter threshold passed explicitly. -/
def detect_numbering_type (chapters : List (Nat × List Nat))
    (threshold : Nat) : String :=
  if chapters = [] then "sequential"
  else
    let fromScan :=
      if 2 ≤ chapters.length then
        kScan chapters (sortNat (chapters.map Prod.fst))
      else none
    match fromScan with
    | some true => "relative"
    | some false => "sequential"
    | none =>
        if chapters.length = 1 ∧ 1 < (chapters.map Prod.fst).headD 0 then
          "sequential"
        else
          if threshold ≤ (chaptersGet chapters 1).length then "sequential"
          else "relative"

namespace RagPipeline

/-- A miniature Python value universe for the result of
`self._area_blocker.is_blocked(...)`: the real `AreaBlocker` returns a
2-tuple, while `RagPipeline.query` expects a dict. -/
inductive BlockVal where
  | pyTuple (blocked : Bool) (message : Option String)
  | pyDict (blocked : Bool) (message : Option String)
  deriving Repr, DecidableEq

/-- The `AttributeError` message raised by `tuple.get`. -/
def attrError : String :=
  "AttributeError: tuple object has no attribute get"

/-- Python `value.get("blocked", False)`: succeeds only on a dict; on a
tuple it raises `AttributeError`. -/
def pyGetBlocked (v : BlockVal) : Except String Bool :=
  match v with
  | BlockVal.pyTuple _ _ => Except.error attrError
  | BlockVal.pyDict b _ => Except.ok b

/-- Python `value.get("message", default)` (same dict-only access). -/
def pyGetMessage (v : BlockVal) : Except String (Option String) :=
  match v with
  | BlockVal.pyTuple _ _ => Except.error attrError
  | BlockVal.pyDict _ m => Except.ok m

/-- The fixed low-confidence fallback answer of `rag/rag_pipeline.py`. -/
def LOW_CONFIDENCE_ANSWER : String :=
  "Jag hittade inte tillräckligt med relevant information för att besvara " ++
  "din fråga med tillräcklig säkerhet. Försök omformulera frågan eller " ++
  "kontakta en jurist för rådgivning."

/-- The dict returned by `RagPipeline.query` (source references and the
final answer text are kept abstract: they come from external collaborators
and post-processing outside the claims). -/
structure RagResult where
  answer : String
  blocked : Bool
  blocked_message : Option String
  confidence : Option ConfidenceGate.GateResult
  chunks_used : Nat
  low_confidence : Bool
  deriving Repr, DecidableEq

/-- A run of `RagPipeline.query`: either a returned result dict or a raised
exception, together with how many vector-store queries and LLM calls were
issued during the run. -/
instance exceptDecEq {ε α : Type} [DecidableEq ε] [DecidableEq α] :
    DecidableEq (Except ε α) := fun a b =>
  match a, b with
  | Except.error e, Except.error f =>
      if h : e = f then Decidable.isTrue (by rw [h])
      else Decidable.isFalse (by intro hc; cases hc; exact h rfl)
  | Except.error _, Except.ok _ => Decidable.isFalse (by intro hc; cases hc)
  | Except.ok _, Except.error _ => Decidable.isFalse (by intro hc; cases hc)
  | Except.ok x, Except.ok y =>
      if h : x = y then Decidable.isTrue (by rw [h])
      else Decidable.isFalse (by intro hc; cases hc; exact h rfl)

structure RagOutcome where
  result : Except String RagResult
  vector_store_calls : Nat
  llm_calls : Nat
  deriving Repr, DecidableEq

/-- `RagPipeline.query`.  `collections` carries, per configured collection,
the chunks the external vector store would return (`none` models a raised
and caught per-collection exception); `llm_answer` is what the external LLM
would produce.  The block check calls the real `AreaBlocker.is_blocked`,
which returns a tuple, and then reads it with `.get("blocked", False)` —
which on a tuple raises `AttributeError` before any later stage runs.  The
branches below the block check are therefore unreachable with the real
blocker; they are embedded anyway, mirroring the source. -/
def query (areas : List AreaBlocker.Area)
    (collections : List (Option (List RChunk)))
    (llm_answer : String) (user_query : String) : RagOutcome :=
  let br := AreaBlocker.is_blocked areas user_query
  let block_result := BlockVal.pyTuple br.fst br.snd
  match pyGetBlocked block_result with
  | Except.error e => ⟨Except.error e, 0, 0⟩
  | Except.ok blocked =>
      if blocked then
        match pyGetMessage block_result with
        | Except.error e => ⟨Except.error e, 0, 0⟩
        | Except.ok msg =>
            ⟨Except.ok ⟨msg.getD "", true, msg, none, 0, false⟩, 0, 0⟩
      else
        let raw_chunks := collections.foldl
          (fun acc r => acc ++ r.getD []) []
        let reranked_chunks := NormBoost.rerank raw_chunks
        let confidence_result := ConfidenceGate.evaluate (some reranked_chunks)
        if confidence_result.pass = false then
          ⟨Except.ok ⟨LOW_CONFIDENCE_ANSWER, false, none,
              some confidence_result, reranked_chunks.length, true⟩,
            collections.length, 0⟩
        else
          ⟨Except.ok ⟨llm_answer, false, none, some confidence_result,
              reranked_chunks.length, false⟩,
            collections.length, 1⟩

end RagPipeline

/-- Modelled from the spec: "Token estimate: round(word_count * 1.3)" — the
word count times 1.3 rounded to the nearest integer (here in exact natural
arithmetic, rounding halves up; no comparison below happens at a half).
This is the comparison definition for the refinement claim about the
chunker's token estimator; the source uses truncation instead. -/
def round_estimate (word_count : Nat) : Nat :=
  (13 * word_count + 5) / 10

/-- A concrete binding/sfs chunk at distance 0.2, used as witness input. -/
def sampleBindingChunk : RChunk :=
  { authority_level := some "binding", source_type := some "sfs",
    distance := some (1/5) }

/-- A concrete binding/sfs chunk at distance 0.1, used as witness input. -/
def sampleBindingNear : RChunk :=
  { authority_level := some "binding", source_type := some "sfs",
    distance := some (1/10) }

/-- A concrete guiding/praxis chunk at distance 0.1, used as witness input. -/
def sampleGuidingNear : RChunk :=
  { authority_level := some "guiding", source_type := some "praxis",
    distance := some (1/10) }

theorem insertSorted_perm {α : Type} (le : α → α → Bool) (x : α) (l : List α) :
    List.Perm (insertSorted le x l) (x :: l) := by
  induction l with
  | nil => simp [insertSorted]
  | cons y ys ih =>
      by_cases h : le x y = true
      · rw [insertSorted, if_pos h]
      · rw [insertSorted, if_neg h]
        exact List.Perm.trans (List.Perm.cons y ih) (List.Perm.swap x y ys)

theorem insertionSort_perm {α : Type} (le : α → α → Bool) (l : List α) :
    List.Perm (insertionSort le l) l := by
  induction l with
  | nil => simp [insertionSort]
  | cons x xs ih =>
      exact List.Perm.trans (insertSorted_perm le x (insertionSort le xs))
        (List.Perm.cons x ih)

theorem mem_insertionSort {α : Type} (le : α → α → Bool) (l : List α) (a : α) :
    a ∈ insertionSort le l ↔ a ∈ l :=
  (insertionSort_perm le l).mem_iff

theorem insertionSort_length {α : Type} (le : α → α → Bool) (l : List α) :
    (insertionSort le l).length = l.length :=
  (insertionSort_perm le l).length_eq

theorem insertSorted_pairwise {α : Type} (le : α → α → Bool)
    (htrans : ∀ a b c, le a b = true → le b c = true → le a c = true)
    (htot : ∀ a b, le a b = true ∨ le b a = true)
    (x : α) (l : List α) (hl : List.Pairwise (fun a b => le a b = true) l) :
    List.Pairwise (fun a b => le a b = true) (insertSorted le x l) := by
  induction l with
  | nil => simp [insertSorted]
  | cons y ys ih =>
      rcases hl with _ | ⟨hy, hys⟩
      by_cases h : le x y = true
      · rw [insertSorted, if_pos h]
        refine List.Pairwise.cons ?_ (List.Pairwise.cons hy hys)
        intro b hb
        rcases List.mem_cons.mp hb with rfl | hb'
        · exact h
        · exact htrans x y b h (hy _ hb')
      · have hyx : le y x = true := by
          rcases htot x y with h1 | h1
          · exact absurd h1 h
          · exact h1
        rw [insertSorted, if_neg h]
        refine List.Pairwise.cons ?_ (ih hys)
        intro b hb
        have hmem : b ∈ x :: ys := (insertSorted_perm le x ys).mem_iff.mp hb
        rcases List.mem_cons.mp hmem with rfl | hb'
        · exact hyx
        · exact hy _ hb'

theorem insertionSort_pairwise {α : Type} (le : α → α → Bool)
    (htrans : ∀ a b c, le a b = true → le b c = true → le a c = true)
    (htot : ∀ a b, le a b = true ∨ le b a = true) (l : List α) :
    List.Pairwise (fun a b => le a b = true) (insertionSort le l) := by
  induction l with
  | nil => simp [insertionSort]
  | cons x xs ih => exact insertSorted_pairwise le htrans htot x _ ih


/-- Claim C7, corrected.  The chunker's token estimator truncates: for every
text it returns the floor of word_count × 1.3 (Python `int(...)`), not the
nearest integer; it agrees with the spec's `round(word_count * 1.3)` exactly
when the fractional part of 0.3 × word_count is below one half, and
otherwise falls short of it by exactly 1.  (The same `_approx_tokens` is the
only estimator appearing in the chunker's minimum check, merge accumulation
and split packing; see `mergeScan`, `packStycken` and `chunkGo`.) -/
theorem approx_tokens_truncates (ws : List String) :
    _approx_tokens ws = 13 * ws.length / 10
    ∧ _approx_tokens ws ≤ round_estimate ws.length
    ∧ round_estimate ws.length ≤ _approx_tokens ws + 1
    ∧ (_approx_tokens ws = round_estimate ws.length ↔ 13 * ws.length % 10 < 5) := by
  unfold _approx_tokens round_estimate
  refine ⟨rfl, by omega, by omega, by omega⟩

/-- Claim C7, counterexample to the claim as stated: on a 3-word text the
source estimator returns int(3 × 1.3) = int(3.9) = 3, while
round(3 × 1.3) = 4. -/
theorem approx_tokens_not_round_cex :
    _approx_tokens (List.replicate 3 "ord") = 3
    ∧ round_estimate 3 = 4
    ∧ _approx_tokens (List.replicate 3 "ord") ≠ round_estimate 3 := by
  refine ⟨by decide, by decide, by decide⟩

/-- Claim C5, counterexample to the claim as stated: for sequential
numbering the chapter segment is not omitted from the namespace; it is
rendered as the literal "0kap". -/
theorem make_namespace_sequential_cex :
    _make_namespace "1970:994" "3" "5" "sequential" 1 =
      "sfs::1970:994_0kap_5§_chunk_001"
    ∧ _make_namespace "1970:994" "3" "5" "sequential" 1 ≠
      "sfs::1970:994_5§_chunk_001" := by
  refine ⟨by decide, by decide⟩

/-- Claim C5, amended.  Namespace generation is a pure function of
(statute number, chapter, paragraph label, numbering type, chunk index) —
hence deterministic — with the form
sfs::{statute}_{chapter}kap_{label}§_chunk_{index zero-padded to ≥ 3 digits}
for relative numbering with a non-empty chapter; for sequential numbering
the chapter segment is rendered as "0kap" (not omitted), so the namespace
does not depend on the chapter value at all. -/
theorem make_namespace_characterization (sfs kap par : String) (idx : Nat)
    (h : kap ≠ "") :
    _make_namespace sfs kap par "relative" idx =
      "sfs::" ++ sfs ++ "_" ++ (kap ++ "kap") ++ "_" ++ par ++ "§_chunk_" ++
        pad3 idx
    ∧ _make_namespace sfs kap par "sequential" idx =
      "sfs::" ++ sfs ++ "_" ++ "0kap" ++ "_" ++ par ++ "§_chunk_" ++ pad3 idx
    ∧ _make_namespace sfs kap par "sequential" idx =
      _make_namespace sfs "" par "sequential" idx
    ∧ (pad3 idx).length = max 3 (toString idx).length := by
  refine ⟨?_, ?_, ?_, ?_⟩
  · simp [_make_namespace, h]
  · simp [_make_namespace]
  · simp [_make_namespace]
  · unfold pad3
    by_cases hlen : (toString idx).length < 3
    · rw [if_pos hlen, String.length_append]
      simp only [String.length]
      simp [List.length_replicate]
      omega
    · rw [if_neg hlen]
      omega

/-- Claim C5, witness for the amended theorem at a concrete input. -/
theorem make_namespace_characterization_witness :
    ("3" : String) ≠ "" ∧
    (_make_namespace "1970:994" "3" "5" "relative" 1 =
      "sfs::" ++ "1970:994" ++ "_" ++ ("3" ++ "kap") ++ "_" ++ "5" ++
        "§_chunk_" ++ pad3 1
    ∧ _make_namespace "1970:994" "3" "5" "sequential" 1 =
      "sfs::" ++ "1970:994" ++ "_" ++ "0kap" ++ "_" ++ "5" ++ "§_chunk_" ++
        pad3 1
    ∧ _make_namespace "1970:994" "3" "5" "sequential" 1 =
      _make_namespace "1970:994" "" "5" "sequential" 1
    ∧ (pad3 1).length = max 3 (toString 1).length) :=
  ⟨by decide, make_namespace_characterization "1970:994" "3" "5" 1 (by decide)⟩

/-- Claim C2, code bug.  The weight table has no "preparatory" entry, so a
preparatory chunk is collapsed to "persuasive": it receives weight 0.4
(norm_score 0.4 at distance 0, not the specified 0.6) and tie-break rank 2
shared with persuasive (so at equal distance an earlier persuasive chunk is
ordered before a later preparatory chunk, contradicting the specified
ordering).  This evaluates the reranker at the input of the repository's own
failing test; the expected order there is binding, guiding, preparatory,
persuasive with preparatory norm_score 0.6. -/
theorem norm_boost_preparatory_weight_bug :
    NormBoost.AUTHORITY_WEIGHTS "preparatory" = none
    ∧ (NormBoost.rerank [
        { authority_level := some "persuasive", distance := some 0 },
        { authority_level := some "preparatory", distance := some 0 },
        { authority_level := some "guiding", distance := some 0 },
        { authority_level := some "binding", distance := some 0 }]).map
        (fun c => (c.authority_level.getD "", c.norm_score.getD 0)) =
      [("binding", 1), ("guiding", 7/10), ("persuasive", 2/5),
       ("preparatory", 2/5)] := by
  constructor
  · simp [NormBoost.AUTHORITY_WEIGHTS]
  · simp [NormBoost.rerank, List.enum, List.enumFrom,
      NormBoost.effectiveAuthority, NormBoost.AUTHORITY_WEIGHTS,
      NormBoost._relevance_weight, NormBoost._authority_rank]
    norm_num [insertionSort, insertSorted, NormBoost.decoratedLe,
      decide_eq_true_eq]

set_option maxRecDepth 10000 in
/-- Claim C4, code bug.  An oversized transitional provision
(is_overgangsbestammelse, two stycken of 350 words, 910 estimated tokens) is
split into two sub-chunks by the oversize branch of chunk_paragraphs — the
standalone rule is only applied to definition paragraphs, so the claim's
"never split" fails (and a transitional paragraph can likewise be absorbed
into a preceding undersized paragraph's merge). -/
theorem chunker_splits_oversized_transitional :
    (chunk_paragraphs
      [{ paragraf := "1", is_overgangsbestammelse := true,
         text := List.replicate 700 "w",
         stycken := [List.replicate 350 "w", List.replicate 350 "w"] }]
      "2024:1").map
      (fun c => (c.stycke, c.chunk_index, c.chunk_total,
        _approx_tokens c.text, c.is_overgangsbestammelse)) =
    [("1", 0, 2, 455, true), ("2", 1, 2, 455, true)] := by
  decide

/-- Claim C3, counterexample to the claim as stated: a lone 10-word
paragraph with no flags produces a single chunk with 13 estimated tokens,
violating the claimed lower bound of 100. -/
theorem chunk_token_range_cex :
    (chunk_paragraphs [{ paragraf := "1", text := List.replicate 10 "w" }]
      "2024:1").map
      (fun c => (_approx_tokens c.text, c.is_definition,
        c.is_overgangsbestammelse)) = [(13, false, false)] := by
  decide

/-- Claim C1, code bug.  AreaBlocker.is_blocked returns a tuple, but
RagPipeline.query reads its result with .get("blocked", False), a dict
method: with the real blocker every query — blocked or not — raises
AttributeError at step 1 and the pipeline never returns the specified
blocked result.  The blocker itself does classify the theft query as blocked
with the straffrätt referral message, and (vacuously, via the exception) no
vector-store query and no LLM call is ever issued. -/
theorem rag_query_stold_attribute_error :
    (∀ (areas : List AreaBlocker.Area)
        (collections : List (Option (List RChunk))) (llm q : String),
      RagPipeline.query areas collections llm q =
        ⟨Except.error RagPipeline.attrError, 0, 0⟩)
    ∧ AreaBlocker.is_blocked AreaBlocker.BUILT_IN_AREAS
        "Vad är straffet för stöld?" =
      (true, some ("Denna tjänst täcker inte straffrättsliga frågor. " ++
        "Kontakta en advokat eller rättshjälpen."))
    ∧ (RagPipeline.query AreaBlocker.BUILT_IN_AREAS
        [some [{ id := "c1" }], some []] "llm-answer"
        "Vad är straffet för stöld?").vector_store_calls = 0
    ∧ (RagPipeline.query AreaBlocker.BUILT_IN_AREAS
        [some [{ id := "c1" }], some []] "llm-answer"
        "Vad är straffet för stöld?").llm_calls = 0 := by
  refine ⟨fun areas collections llm q => rfl, by decide, rfl, rfl⟩

theorem mergeScan_tokens_le (kapitel : String) :
    ∀ (rest : List Para) (merged : List String),
      _approx_tokens merged ≤ MAX_TOKENS →
      _approx_tokens (mergeScan merged kapitel rest).words ≤ MAX_TOKENS := by
  intro rest
  induction rest with
  | nil => intro merged h; simpa [mergeScan] using h
  | cons q qs ih =>
      intro merged h
      unfold mergeScan
      by_cases h1 : _approx_tokens merged < MIN_TOKENS
      · rw [if_pos h1]
        by_cases h2 : q.kapitel = kapitel ∧ q.is_definition = false ∧
            _approx_tokens (merged ++ q.text) ≤ MAX_TOKENS
        · rw [if_pos h2]
          simpa using ih (merged ++ q.text) h2.2.2
        · rw [if_neg h2]
          simpa using h
      · rw [if_neg h1]
        simpa using h

theorem chunkGo_token_upper (sfs_nr : String) :
    ∀ (fuel : Nat) (ps : List Para) (c : SChunk), c ∈ chunkGo sfs_nr fuel ps →
      _approx_tokens c.text ≤ MAX_TOKENS ∨ c.is_definition = true ∨
        ∃ p ∈ ps, MAX_TOKENS < _approx_tokens p.text := by
  intro fuel
  induction fuel with
  | zero => intro ps c hc; simp [chunkGo] at hc
  | succ fuel ih =>
      intro ps c hc
      cases ps with
      | nil => simp [chunkGo] at hc
      | cons para rest =>
          by_cases hdef : para.is_definition
          · rw [chunkGo, if_pos hdef] at hc
            rcases List.mem_cons.mp hc with rfl | hc'
            · right; left; simp [_make_chunk, hdef]
            · rcases ih rest c hc' with h | h | ⟨p, hp, hpt⟩
              · exact Or.inl h
              · exact Or.inr (Or.inl h)
              · exact Or.inr (Or.inr ⟨p, List.mem_cons_of_mem _ hp, hpt⟩)
          · rw [chunkGo, if_neg hdef] at hc
            by_cases hsmall : _approx_tokens para.text < MIN_TOKENS ∧
                para.is_overgangsbestammelse = false
            · by_cases hcons : 0 < (mergeScan para.text para.kapitel rest).consumed
              · rw [if_pos hsmall, if_pos hcons] at hc
                rcases List.mem_cons.mp hc with rfl | hc'
                · left
                  have hbase : _approx_tokens para.text ≤ MAX_TOKENS := by
                    have := hsmall.1
                    unfold MIN_TOKENS at this
                    unfold MAX_TOKENS
                    omega
                  simpa [_make_chunk] using
                    mergeScan_tokens_le para.kapitel rest para.text hbase
                · rcases ih (rest.drop _) c hc' with h | h | ⟨p, hp, hpt⟩
                  · exact Or.inl h
                  · exact Or.inr (Or.inl h)
                  · exact Or.inr (Or.inr ⟨p,
                      List.mem_cons_of_mem _ (List.drop_subset _ _ hp), hpt⟩)
              · rw [if_pos hsmall, if_neg hcons] at hc
                by_cases hmax : _approx_tokens para.text ≤ MAX_TOKENS
                · rw [if_pos hmax] at hc
                  rcases List.mem_cons.mp hc with rfl | hc'
                  · left; simpa [_make_chunk] using hmax
                  · rcases ih rest c hc' with h | h | ⟨p, hp, hpt⟩
                    · exact Or.inl h
                    · exact Or.inr (Or.inl h)
                    · exact Or.inr (Or.inr ⟨p, List.mem_cons_of_mem _ hp, hpt⟩)
                · rw [if_neg hmax] at hc
                  rcases List.mem_append.mp hc with hcl | hc'
                  · exact Or.inr (Or.inr ⟨para, List.mem_cons_self _ _,
                      by omega⟩)
                  · rcases ih rest c hc' with h | h | ⟨p, hp, hpt⟩
                    · exact Or.inl h
                    · exact Or.inr (Or.inl h)
                    · exact Or.inr (Or.inr ⟨p, List.mem_cons_of_mem _ hp, hpt⟩)
            · rw [if_neg hsmall] at hc
              by_cases hmax : _approx_tokens para.text ≤ MAX_TOKENS
              · rw [if_pos hmax] at hc
                rcases List.mem_cons.mp hc with rfl | hc'
                · left; simpa [_make_chunk] using hmax
                · rcases ih rest c hc' with h | h | ⟨p, hp, hpt⟩
                  · exact Or.inl h
                  · exact Or.inr (Or.inl h)
                  · exact Or.inr (Or.inr ⟨p, List.mem_cons_of_mem _ hp, hpt⟩)
              · rw [if_neg hmax] at hc
                rcases List.mem_append.mp hc with hcl | hc'
                · exact Or.inr (Or.inr ⟨para, List.mem_cons_self _ _,
                    by omega⟩)
                · rcases ih rest c hc' with h | h | ⟨p, hp, hpt⟩
                  · exact Or.inl h
                  · exact Or.inr (Or.inl h)
                  · exact Or.inr (Or.inr ⟨p, List.mem_cons_of_mem _ hp, hpt⟩)

/-- Claim C3, amended.  Every chunk emitted by chunk_paragraphs has at most
800 estimated tokens unless its source paragraph was flagged as a definition
or some input paragraph itself exceeds 800 estimated tokens (oversized
paragraphs are split on stycke boundaries, and a resulting sub-chunk can
still exceed 800).  The claimed lower bound of 100 is not enforced at all: a
paragraph that cannot be merged up to 100 tokens within its chapter is
emitted as an undersized chunk (see the counterexample). -/
theorem chunk_paragraphs_token_upper (paragraphs : List Para)
    (sfs_nr : String) (c : SChunk) (hc : c ∈ chunk_paragraphs paragraphs sfs_nr) :
    _approx_tokens c.text ≤ MAX_TOKENS ∨ c.is_definition = true ∨
      ∃ p ∈ paragraphs, MAX_TOKENS < _approx_tokens p.text :=
  chunkGo_token_upper sfs_nr paragraphs.length paragraphs c hc

/-- Claim C3, witness for the amended theorem: the undersized 13-token chunk
of the counterexample satisfies the amended bound. -/
theorem chunk_paragraphs_token_upper_witness :
    (_make_chunk "2024:1" { paragraf := "1", text := List.replicate 10 "w" }
        (List.replicate 10 "w") "" 0 1) ∈
      chunk_paragraphs [{ paragraf := "1", text := List.replicate 10 "w" }]
        "2024:1"
    ∧ (_approx_tokens (_make_chunk "2024:1"
          { paragraf := "1", text := List.replicate 10 "w" }
          (List.replicate 10 "w") "" 0 1).text ≤ MAX_TOKENS ∨
        (_make_chunk "2024:1" { paragraf := "1", text := List.replicate 10 "w" }
          (List.replicate 10 "w") "" 0 1).is_definition = true ∨
        ∃ p ∈ [({ paragraf := "1", text := List.replicate 10 "w" } : Para)],
          MAX_TOKENS < _approx_tokens p.text) :=
  ⟨by decide,
    chunk_paragraphs_token_upper
      [{ paragraf := "1", text := List.replicate 10 "w" }] "2024:1"
      (_make_chunk "2024:1" { paragraf := "1", text := List.replicate 10 "w" }
        (List.replicate 10 "w") "" 0 1) (by decide)⟩

theorem two_le_length_of_mem_ne {α : Type} {a b : α} {l : List α}
    (ha : a ∈ l) (hb : b ∈ l) (hne : a ≠ b) : 2 ≤ l.length := by
  cases l with
  | nil => cases ha
  | cons x xs =>
      rcases List.mem_cons.mp ha with rfl | ha'
      · rcases List.mem_cons.mp hb with rfl | hb'
        · exact absurd rfl hne
        · have h1 := List.length_pos_of_mem hb'
          simp only [List.length_cons]
          omega
      · have h1 := List.length_pos_of_mem ha'
        simp only [List.length_cons]
        omega

theorem contains_map_exists {β : Type} (f : β → String) (l : List β)
    (s : String) (h : (l.map f).contains s = true) : ∃ c ∈ l, f c = s := by
  have hmem : s ∈ l.map f := by
    have : List.elem s (l.map f) = true := h
    exact List.elem_iff.mp this
  rcases List.mem_map.mp hmem with ⟨c, hc, hfc⟩
  exact ⟨c, hc, hfc⟩

theorem lowDistanceChunks_subset (chunks : List RChunk) :
    ∀ c ∈ ConfidenceGate.lowDistanceChunks chunks, c ∈ chunks := by
  intro c hc
  have h1 := List.mem_of_mem_filter hc
  exact (mem_insertionSort _ chunks c).mp h1

theorem conflicting_authority_levels (chunks : List RChunk)
    (h : ConfidenceGate._has_conflicting_authority chunks = true) :
    (∃ cb ∈ chunks, ConfidenceGate._get_authority_level cb = "binding") ∧
    (∃ cg ∈ chunks, ConfidenceGate._get_authority_level cg = "guiding") := by
  by_cases hlow : ConfidenceGate.lowDistanceChunks chunks = []
  · simp [ConfidenceGate._has_conflicting_authority, hlow] at h
  · simp only [ConfidenceGate._has_conflicting_authority, if_neg hlow,
      Bool.and_eq_true] at h
    rcases h with ⟨hb, hg⟩
    rcases contains_map_exists _ _ _ hb with ⟨cb, hcb, hficb⟩
    rcases contains_map_exists _ _ _ hg with ⟨cg, hcg, hficg⟩
    exact ⟨⟨cb, lowDistanceChunks_subset chunks cb hcb, hficb⟩,
      ⟨cg, lowDistanceChunks_subset chunks cg hcg, hficg⟩⟩

theorem conflicting_authority_two (chunks : List RChunk)
    (h : ConfidenceGate._has_conflicting_authority chunks = true) :
    2 ≤ chunks.length := by
  obtain ⟨⟨cb, hcb, hlb⟩, ⟨cg, hcg, hlg⟩⟩ := conflicting_authority_levels chunks h
  have hne : cb ≠ cg := by
    intro he
    rw [he, hlg] at hlb
    exact absurd hlb (by decide)
  exact two_le_length_of_mem_ne hcb hcg hne

theorem only_persuasive_all (chunks : List RChunk)
    (h : ConfidenceGate.only_persuasive_trigger chunks = true) :
    ∀ c ∈ chunks, ConfidenceGate._get_authority_level c = "persuasive" := by
  intro c hc
  unfold ConfidenceGate.only_persuasive_trigger at h
  rw [Bool.and_eq_true] at h
  rcases h with ⟨-, hall⟩
  have := List.all_eq_true.mp hall (ConfidenceGate._get_authority_level c)
    (List.mem_map_of_mem _ hc)
  simpa using this

theorem conflicting_not_only_persuasive (chunks : List RChunk)
    (h2 : ConfidenceGate._has_conflicting_authority chunks = true) :
    ConfidenceGate.only_persuasive_trigger chunks = false := by
  cases hv : ConfidenceGate.only_persuasive_trigger chunks
  · rfl
  · obtain ⟨⟨cb, hcb, hlb⟩, -⟩ := conflicting_authority_levels chunks h2
    have hp := only_persuasive_all chunks hv cb hcb
    rw [hp] at hlb
    exact absurd hlb (by decide)

theorem conflicting_not_sparse (chunks : List RChunk)
    (h2 : ConfidenceGate._has_conflicting_authority chunks = true) :
    ConfidenceGate.sparse_results_trigger chunks = false := by
  have := conflicting_authority_two chunks h2
  simp only [ConfidenceGate.sparse_results_trigger, decide_eq_false_iff_not]
  omega

/-- Claim C6, confirmed.  ConfidenceGate.evaluate returns pass False, score
0.0 and the single flag no_results on None or empty input; on non-empty
input the score is 1.0 minus the sum of the triggered penalties
(only_persuasive 0.3, conflicting_authority 0.2, sparse_results 0.15,
single_source_type 0.1) floored at 0.0 (the 4-decimal rounding is exact on
every reachable value), hence always within [0.0, 1.0], and pass holds
exactly when the score reaches the 0.5 threshold. -/
theorem confidence_gate_evaluate_spec (chunks : List RChunk) (h : chunks ≠ []) :
    ConfidenceGate.evaluate none =
      ⟨false, 0, some "No retrieval results.", ["no_results"]⟩
    ∧ ConfidenceGate.evaluate (some []) =
      ⟨false, 0, some "No retrieval results.", ["no_results"]⟩
    ∧ (ConfidenceGate.evaluate (some chunks)).score =
        max 0 (1 -
          ((if ConfidenceGate.only_persuasive_trigger chunks then
              ConfidenceGate.only_persuasive_penalty else 0)
          + (if ConfidenceGate._has_conflicting_authority chunks then
              ConfidenceGate.conflicting_authority_penalty else 0)
          + (if ConfidenceGate.sparse_results_trigger chunks then
              ConfidenceGate.sparse_results_penalty else 0)
          + (if ConfidenceGate.single_source_type_trigger chunks then
              ConfidenceGate.single_source_type_penalty else 0)))
    ∧ 0 ≤ (ConfidenceGate.evaluate (some chunks)).score
    ∧ (ConfidenceGate.evaluate (some chunks)).score ≤ 1
    ∧ ((ConfidenceGate.evaluate (some chunks)).pass = true ↔
        ConfidenceGate.pass_threshold ≤
          (ConfidenceGate.evaluate (some chunks)).score) := by
  cases h1 : ConfidenceGate.only_persuasive_trigger chunks <;>
  cases h2 : ConfidenceGate._has_conflicting_authority chunks <;>
  cases h3 : ConfidenceGate.sparse_results_trigger chunks <;>
  cases h4 : ConfidenceGate.single_source_type_trigger chunks <;>
    refine ⟨rfl, rfl, ?_, ?_, ?_, ?_⟩ <;>
    simp only [ConfidenceGate.evaluate, Option.getD_some, if_neg h,
      h1, h2, h3, h4] <;>
    norm_num [ConfidenceGate.round4, round_eq, ConfidenceGate.pass_threshold,
      ConfidenceGate.only_persuasive_penalty,
      ConfidenceGate.conflicting_authority_penalty,
      ConfidenceGate.sparse_results_penalty,
      ConfidenceGate.single_source_type_penalty, max_def]


/-- Claim C10, confirmed.  For every non-empty chunk list the score is at
least 0.45: conflicting_authority can be raised neither together with
only_persuasive (it requires a binding-level chunk among the low-distance
chunks) nor together with sparse_results (it requires two distinct chunks),
so the triggered penalties never exceed 0.55; in particular whenever
conflicting_authority is raised the gate passes. -/
theorem confidence_gate_score_floor (chunks : List RChunk) (h : chunks ≠ []) :
    (9/20 : ℚ) ≤ (ConfidenceGate.evaluate (some chunks)).score
    ∧ ¬(ConfidenceGate._has_conflicting_authority chunks = true ∧
        ConfidenceGate.only_persuasive_trigger chunks = true)
    ∧ ¬(ConfidenceGate._has_conflicting_authority chunks = true ∧
        ConfidenceGate.sparse_results_trigger chunks = true)
    ∧ (ConfidenceGate._has_conflicting_authority chunks = true →
        (ConfidenceGate.evaluate (some chunks)).pass = true) := by
  rcases Bool.eq_false_or_eq_true
    (ConfidenceGate._has_conflicting_authority chunks) with h2 | h2
  rotate_left
  · refine ⟨?_, by simp [h2], by simp [h2], by intro hc; rw [h2] at hc; cases hc⟩
    cases h1 : ConfidenceGate.only_persuasive_trigger chunks <;>
    cases h3 : ConfidenceGate.sparse_results_trigger chunks <;>
    cases h4 : ConfidenceGate.single_source_type_trigger chunks <;>
      simp only [ConfidenceGate.evaluate, Option.getD_some, if_neg h,
        h1, h2, h3, h4] <;>
      norm_num [ConfidenceGate.round4, round_eq,
        ConfidenceGate.only_persuasive_penalty,
        ConfidenceGate.conflicting_authority_penalty,
        ConfidenceGate.sparse_results_penalty,
        ConfidenceGate.single_source_type_penalty, max_def]
  · have h1 := conflicting_not_only_persuasive chunks h2
    have h3 := conflicting_not_sparse chunks h2
    refine ⟨?_, by simp [h1], by simp [h3], fun _ => ?_⟩ <;>
    cases h4 : ConfidenceGate.single_source_type_trigger chunks <;>
      simp only [ConfidenceGate.evaluate, Option.getD_some, if_neg h,
        h1, h2, h3, h4] <;>
      norm_num [ConfidenceGate.round4, round_eq,
        ConfidenceGate.pass_threshold,
        ConfidenceGate.only_persuasive_penalty,
        ConfidenceGate.conflicting_authority_penalty,
        ConfidenceGate.sparse_results_penalty,
        ConfidenceGate.single_source_type_penalty, max_def]

/-- Claim C6, witness for the theorem at a concrete one-chunk input. -/
theorem confidence_gate_evaluate_spec_witness :
    ([sampleBindingChunk] ≠ []) ∧
    (ConfidenceGate.evaluate none =
      ⟨false, 0, some "No retrieval results.", ["no_results"]⟩
    ∧ ConfidenceGate.evaluate (some []) =
      ⟨false, 0, some "No retrieval results.", ["no_results"]⟩
    ∧ (ConfidenceGate.evaluate (some [sampleBindingChunk])).score =
        max 0 (1 -
          ((if ConfidenceGate.only_persuasive_trigger [sampleBindingChunk] then
              ConfidenceGate.only_persuasive_penalty else 0)
          + (if ConfidenceGate._has_conflicting_authority [sampleBindingChunk] then
              ConfidenceGate.conflicting_authority_penalty else 0)
          + (if ConfidenceGate.sparse_results_trigger [sampleBindingChunk] then
              ConfidenceGate.sparse_results_penalty else 0)
          + (if ConfidenceGate.single_source_type_trigger [sampleBindingChunk] then
              ConfidenceGate.single_source_type_penalty else 0)))
    ∧ 0 ≤ (ConfidenceGate.evaluate (some [sampleBindingChunk])).score
    ∧ (ConfidenceGate.evaluate (some [sampleBindingChunk])).score ≤ 1
    ∧ ((ConfidenceGate.evaluate (some [sampleBindingChunk])).pass = true ↔
        ConfidenceGate.pass_threshold ≤
          (ConfidenceGate.evaluate (some [sampleBindingChunk])).score)) :=
  ⟨by simp, confidence_gate_evaluate_spec [sampleBindingChunk] (by simp)⟩

/-- Claim C10, witness for the theorem at a concrete two-chunk input with
conflicting binding and guiding authority at low distance. -/
theorem confidence_gate_score_floor_witness :
    ([sampleBindingNear, sampleGuidingNear] ≠ []) ∧
    ((9/20 : ℚ) ≤ (ConfidenceGate.evaluate
        (some [sampleBindingNear, sampleGuidingNear])).score
    ∧ ¬(ConfidenceGate._has_conflicting_authority
          [sampleBindingNear, sampleGuidingNear] = true ∧
        ConfidenceGate.only_persuasive_trigger
          [sampleBindingNear, sampleGuidingNear] = true)
    ∧ ¬(ConfidenceGate._has_conflicting_authority
          [sampleBindingNear, sampleGuidingNear] = true ∧
        ConfidenceGate.sparse_results_trigger
          [sampleBindingNear, sampleGuidingNear] = true)
    ∧ (ConfidenceGate._has_conflicting_authority
          [sampleBindingNear, sampleGuidingNear] = true →
        (ConfidenceGate.evaluate
          (some [sampleBindingNear, sampleGuidingNear])).pass = true)) :=
  ⟨by simp, confidence_gate_score_floor
    [sampleBindingNear, sampleGuidingNear] (by simp)⟩

theorem containsSub_of_append (pat : List Char) :
    ∀ (a b : List Char), containsSub pat (a ++ (pat ++ b)) = true := by
  intro a
  induction a with
  | nil =>
      intro b
      cases hp : pat ++ b with
      | nil =>
          have hpat : pat = [] := by cases pat <;> simp_all
          simp [containsSub, hpat, hp]
      | cons c rest =>
          simp only [List.nil_append, hp, containsSub]
          have hpre : pat.isPrefixOf (pat ++ b) = true :=
            List.isPrefixOf_iff_prefix.mpr ⟨b, rfl⟩
          rw [hp] at hpre
          simp [hpre]
  | cons c a ih =>
      intro b
      simp only [List.cons_append, containsSub, List.append_eq]
      rw [ih b]
      simp

theorem takeBeforeFirst_spec (pat : List Char) :
    ∀ (s : List Char), containsSub pat s = true →
      ∃ b, s = takeBeforeFirst pat s ++ (pat ++ b) := by
  intro s
  induction s with
  | nil =>
      intro h
      have hpat : pat = [] := by
        simpa [containsSub, List.isEmpty_iff] using h
      exact ⟨[], by simp [takeBeforeFirst, hpat]⟩
  | cons c rest ih =>
      intro h
      by_cases hp : pat.isPrefixOf (c :: rest) = true
      · rcases List.isPrefixOf_iff_prefix.mp hp with ⟨t, ht⟩
        refine ⟨t, ?_⟩
        rw [takeBeforeFirst, if_pos hp]
        simpa using ht.symm
      · have hrest : containsSub pat rest = true := by
          have := h
          rw [containsSub, Bool.or_eq_true] at this
          rcases this with h1 | h1
          · exact absurd h1 hp
          · exact h1
        rcases ih hrest with ⟨b, hb⟩
        refine ⟨b, ?_⟩
        rw [takeBeforeFirst, if_neg hp]
        simpa using hb

/-- Claim C8, confirmed.  For a chapter-scoped exclusion pattern (one whose
normalized form contains "_kap"), the per-pattern match of
AreaBlocker.is_sfs_blocked succeeds exactly when the normalized query equals
the normalized pattern, or the query itself carries a "_kap" chapter suffix
directly after the pattern's base statute segment; consequently a bare
statute-number query (no "_kap") different from the pattern never matches.
At the built-in configuration (whose only chapter-scoped pattern is
"1949:381_kap6"), the bare statute "1949:381" is not blocked while
"1949:381_kap6" is blocked with the vbu referral message. -/
theorem is_sfs_blocked_chapter_scoped (pattern q : String)
    (hscoped : containsSub AreaBlocker.kapChars
      ((lowerStr pattern).toList) = true) :
    (AreaBlocker.sfsPatternMatches ((lowerStr (stripStr q)).toList) pattern =
        true ↔
      ((lowerStr (stripStr q)).toList = (lowerStr pattern).toList ∨
        ∃ r, (lowerStr (stripStr q)).toList =
          (takeBeforeFirst AreaBlocker.kapChars ((lowerStr pattern).toList) ++
            AreaBlocker.kapChars) ++ r))
    ∧ (containsSub AreaBlocker.kapChars ((lowerStr (stripStr q)).toList) =
          false →
        (lowerStr (stripStr q)).toList ≠ (lowerStr pattern).toList →
        AreaBlocker.sfsPatternMatches ((lowerStr (stripStr q)).toList)
          pattern = false)
    ∧ AreaBlocker.is_sfs_blocked AreaBlocker.BUILT_IN_AREAS "1949:381" =
        (false, none)
    ∧ AreaBlocker.is_sfs_blocked AreaBlocker.BUILT_IN_AREAS "1949:381_kap6" =
        (true, some ("Tvister om vårdnad, boende och umgänge kräver " ++
          "juridiskt ombud. Kontakta familjerätten i din kommun.")) := by
  have hiff :
      AreaBlocker.sfsPatternMatches ((lowerStr (stripStr q)).toList) pattern =
        true ↔
      ((lowerStr (stripStr q)).toList = (lowerStr pattern).toList ∨
        ∃ r, (lowerStr (stripStr q)).toList =
          (takeBeforeFirst AreaBlocker.kapChars ((lowerStr pattern).toList) ++
            AreaBlocker.kapChars) ++ r) := by
    unfold AreaBlocker.sfsPatternMatches
    rw [if_pos hscoped]
    simp only [Bool.or_eq_true, Bool.and_eq_true, beq_iff_eq,
      List.isPrefixOf_iff_prefix]
    constructor
    · intro hm
      rcases hm with he | ⟨-, hpre⟩
      · exact Or.inl he
      · rcases hpre with ⟨r, hr⟩
        exact Or.inr ⟨r, hr.symm⟩
    · intro hm
      rcases hm with he | ⟨r, hr⟩
      · exact Or.inl he
      · refine Or.inr ⟨?_, ⟨r, hr.symm⟩⟩
        rw [hr, List.append_assoc]
        exact containsSub_of_append AreaBlocker.kapChars _ r
  refine ⟨hiff, ?_, by decide, by decide⟩
  intro hnk hne
  cases hm : AreaBlocker.sfsPatternMatches ((lowerStr (stripStr q)).toList)
      pattern
  · rfl
  · rcases hiff.mp hm with he | ⟨r, hr⟩
    · exact absurd he hne
    · rw [hr, List.append_assoc] at hnk
      rw [containsSub_of_append AreaBlocker.kapChars _ r] at hnk
      exact absurd hnk (by simp)

/-- Claim C8, witness at the built-in chapter-scoped pattern applied to the
matching chapter-6 query. -/
theorem is_sfs_blocked_chapter_scoped_witness :
    (containsSub AreaBlocker.kapChars
      ((lowerStr "1949:381_kap6").toList) = true) ∧
    ((AreaBlocker.sfsPatternMatches
        ((lowerStr (stripStr "1949:381_kap6")).toList) "1949:381_kap6" =
        true ↔
      ((lowerStr (stripStr "1949:381_kap6")).toList =
          (lowerStr "1949:381_kap6").toList ∨
        ∃ r, (lowerStr (stripStr "1949:381_kap6")).toList =
          (takeBeforeFirst AreaBlocker.kapChars
            ((lowerStr "1949:381_kap6").toList) ++
            AreaBlocker.kapChars) ++ r))
    ∧ (containsSub AreaBlocker.kapChars
          ((lowerStr (stripStr "1949:381_kap6")).toList) = false →
        (lowerStr (stripStr "1949:381_kap6")).toList ≠
          (lowerStr "1949:381_kap6").toList →
        AreaBlocker.sfsPatternMatches
          ((lowerStr (stripStr "1949:381_kap6")).toList) "1949:381_kap6" =
          false)
    ∧ AreaBlocker.is_sfs_blocked AreaBlocker.BUILT_IN_AREAS "1949:381" =
        (false, none)
    ∧ AreaBlocker.is_sfs_blocked AreaBlocker.BUILT_IN_AREAS "1949:381_kap6" =
        (true, some ("Tvister om vårdnad, boende och umgänge kräver " ++
          "juridiskt ombud. Kontakta familjerätten i din kommun."))) :=
  ⟨by decide, is_sfs_blocked_chapter_scoped "1949:381_kap6" "1949:381_kap6"
    (by decide)⟩

theorem sortNat_perm (l : List Nat) : List.Perm (sortNat l) l :=
  insertionSort_perm _ l

theorem sortNat_nil_iff (l : List Nat) : sortNat l = [] ↔ l = [] := by
  constructor
  · intro h
    have := (sortNat_perm l).length_eq
    rw [h] at this
    exact List.length_eq_zero.mp this.symm
  · intro h
    rw [h]
    rfl

theorem sortNat_pairwise (l : List Nat) :
    List.Pairwise (fun a b => a ≤ b) (sortNat l) := by
  have := insertionSort_pairwise (fun a b : Nat => decide (a ≤ b))
    (fun a b c hab hbc => by
      simp only [decide_eq_true_eq] at hab hbc ⊢
      omega)
    (fun a b => by
      rcases Nat.le_total a b with h | h
      · exact Or.inl (by simpa using h)
      · exact Or.inr (by simpa using h)) l
  exact this.imp (fun hab => by simpa using hab)

theorem sortNat_head_one_iff (l : List Nat) (p1 : Nat) (t : List Nat)
    (h : sortNat l = p1 :: t) : p1 = 1 ↔ (1 ∈ l ∧ ∀ x ∈ l, 1 ≤ x) := by
  have hmem : ∀ x, x ∈ l ↔ x ∈ p1 :: t := by
    intro x
    rw [← h]
    exact (sortNat_perm l).mem_iff.symm
  have hpw : List.Pairwise (fun a b => a ≤ b) (p1 :: t) := by
    rw [← h]
    exact sortNat_pairwise l
  rcases hpw with _ | ⟨hhead, -⟩
  constructor
  · intro h1
    subst h1
    refine ⟨(hmem 1).mpr (List.mem_cons_self _ _), ?_⟩
    intro x hx
    rcases List.mem_cons.mp ((hmem x).mp hx) with rfl | hx'
    · exact le_refl 1
    · exact hhead x hx'
  · rintro ⟨h1, hall⟩
    have hp1l : p1 ∈ l := (hmem p1).mpr (List.mem_cons_self _ _)
    have h1le : 1 ≤ p1 := hall p1 hp1l
    rcases List.mem_cons.mp ((hmem 1).mp h1) with he | h1t
    · exact he.symm
    · have := hhead 1 h1t
      omega

theorem chaptersGet_eq (chapters : List (Nat × List Nat)) (k : Nat)
    (ps : List Nat) (hnodup : (chapters.map Prod.fst).Nodup)
    (hmem : (k, ps) ∈ chapters) : chaptersGet chapters k = ps := by
  induction chapters with
  | nil => cases hmem
  | cons e rest ih =>
      rcases List.mem_cons.mp hmem with rfl | hmem'
      · simp [chaptersGet, List.find?]
      · have hkey : e.fst ≠ k := by
          intro he
          rcases hnodup with _ | ⟨hne, -⟩
          exact hne k (List.mem_map_of_mem Prod.fst hmem') he
        rcases hnodup with _ | ⟨-, hrest⟩
        have htail := ih hrest hmem'
        have hdec : decide (e.1 = k) = false := by simp [hkey]
        simp only [chaptersGet, List.find?, hdec] at htail ⊢
        exact htail

theorem kScan_finds (chapters : List (Nat × List Nat)) (k : Nat)
    (hk : 1 < k) (hne : chaptersGet chapters k ≠ []) :
    ∀ (ks : List Nat), List.Pairwise (fun a b => a ≤ b) ks → k ∈ ks →
      (∀ k' ∈ ks, 1 < k' → chaptersGet chapters k' ≠ [] → k ≤ k') →
      ∃ p1 t, sortNat (chaptersGet chapters k) = p1 :: t ∧
        kScan chapters ks = some (decide (p1 = 1)) := by
  intro ks
  induction ks with
  | nil => intro _ hmem; cases hmem
  | cons k0 ks ih =>
      intro hpw hmem hmin
      rcases hpw with _ | ⟨hhead, htail⟩
      by_cases hle : k0 ≤ 1
      · have hkne : k ≠ k0 := by omega
        have hmem' : k ∈ ks := by
          rcases List.mem_cons.mp hmem with rfl | h'
          · exact absurd rfl hkne
          · exact h'
        rw [kScan, if_pos hle]
        exact ih htail hmem' (fun k' hk' => hmin k' (List.mem_cons_of_mem _ hk'))
      · cases hs : sortNat (chaptersGet chapters k0) with
        | nil =>
            have hget0 : chaptersGet chapters k0 = [] :=
              (sortNat_nil_iff _).mp hs
            have hkne : k ≠ k0 := by
              intro he
              rw [he, hget0] at hne
              exact hne rfl
            have hmem' : k ∈ ks := by
              rcases List.mem_cons.mp hmem with rfl | h'
              · exact absurd rfl hkne
              · exact h'
            rw [kScan, if_neg hle, hs]
            exact ih htail hmem'
              (fun k' hk' => hmin k' (List.mem_cons_of_mem _ hk'))
        | cons p1 t =>
            have hget0 : chaptersGet chapters k0 ≠ [] := by
              intro h0
              rw [(sortNat_nil_iff _).mpr h0] at hs
              cases hs
            have hkk0 : k = k0 := by
              have h1 : k ≤ k0 :=
                hmin k0 (List.mem_cons_self _ _) (by omega) hget0
              rcases List.mem_cons.mp hmem with rfl | h'
              · rfl
              · have h2 := hhead k h'
                omega
            subst hkk0
            refine ⟨p1, t, hs, ?_⟩
            rw [kScan, if_neg hle, hs]

/-- Claim C9, counterexample to the claim as stated: with a single chapter
numbered 0 the claimed rule ("exactly one chapter whose number is not 1 →
sequential") demands "sequential", but the source checks the chapter number
with a strict greater-than-1 comparison and falls through to the chapter-1
threshold rule, returning "relative". -/
theorem detect_numbering_single_zero_cex :
    detect_numbering_type [(0, [1, 2])] 8 = "relative"
    ∧ detect_numbering_type [(0, [1, 2])] 8 ≠ "sequential" := by
  refine ⟨by decide, by decide⟩

/-- Claim C9, amended.  detect_numbering_type obeys: no chapters →
sequential; with at least two chapters the lowest chapter number strictly
greater than 1 that has at least one paragraph decides (relative exactly
when its smallest paragraph number is 1); exactly one chapter whose number
is strictly greater than 1 (not merely "not 1": a single chapter numbered 0
falls through to the chapter-1 threshold rule and yields relative) →
sequential; exactly one chapter numbered 1 → sequential exactly when its
paragraph count reaches the configured threshold.  The four concrete
examples with threshold 8 behave as specified. -/
theorem detect_numbering_type_rules :
    (∀ threshold, detect_numbering_type [] threshold = "sequential")
    ∧ (∀ (chapters : List (Nat × List Nat)) (threshold k : Nat)
        (ps : List Nat), (chapters.map Prod.fst).Nodup →
        2 ≤ chapters.length → (k, ps) ∈ chapters → 1 < k → ps ≠ [] →
        (∀ (k' : Nat) (ps' : List Nat), (k', ps') ∈ chapters → 1 < k' →
          ps' ≠ [] → k ≤ k') →
        (detect_numbering_type chapters threshold = "relative" ↔
          (1 ∈ ps ∧ ∀ x ∈ ps, 1 ≤ x)))
    ∧ (∀ (threshold k : Nat) (ps : List Nat), 1 < k →
        detect_numbering_type [(k, ps)] threshold = "sequential")
    ∧ (∀ (threshold : Nat) (ps : List Nat),
        (detect_numbering_type [(1, ps)] threshold = "sequential" ↔
          threshold ≤ ps.length))
    ∧ detect_numbering_type [(1, [1,2,3,4,5,6,7,8,9,10])] 8 = "sequential"
    ∧ detect_numbering_type [(1, [1,2,3])] 8 = "relative"
    ∧ detect_numbering_type [(1, [1,2]), (2, [1,2])] 8 = "relative"
    ∧ detect_numbering_type [(1, [1,2]), (2, [5,6])] 8 = "sequential" := by
  refine ⟨fun threshold => rfl, ?_, ?_, ?_, by decide, by decide, by decide,
    by decide⟩
  · intro chapters threshold k ps hnodup hlen hmem hk hne hmin
    have hchne : chapters ≠ [] := by
      intro h0
      rw [h0] at hlen
      simp at hlen
    have hget : chaptersGet chapters k = ps :=
      chaptersGet_eq chapters k ps hnodup hmem
    have hkmem : k ∈ sortNat (chapters.map Prod.fst) :=
      (sortNat_perm _).mem_iff.mpr (List.mem_map_of_mem Prod.fst hmem)
    have hminks : ∀ k' ∈ sortNat (chapters.map Prod.fst), 1 < k' →
        chaptersGet chapters k' ≠ [] → k ≤ k' := by
      intro k' hk'mem h1k' hnek'
      have hk'keys : k' ∈ chapters.map Prod.fst :=
        (sortNat_perm _).mem_iff.mp hk'mem
      rcases List.mem_map.mp hk'keys with ⟨e, hemem, heq⟩
      have hget' : chaptersGet chapters e.fst = e.snd :=
        chaptersGet_eq chapters e.fst e.snd hnodup hemem
      rw [← heq] at hnek' ⊢
      rw [hget'] at hnek'
      exact hmin e.fst e.snd hemem (heq ▸ h1k') hnek'
    obtain ⟨p1, t, hsort, hscan⟩ := kScan_finds chapters k hk
      (by rw [hget]; exact hne) (sortNat (chapters.map Prod.fst))
      (sortNat_pairwise _) hkmem hminks
    rw [hget] at hsort
    have hiff1 := sortNat_head_one_iff ps p1 t hsort
    have hdet : detect_numbering_type chapters threshold =
        (if p1 = 1 then "relative" else "sequential") := by
      unfold detect_numbering_type
      rw [if_neg hchne, if_pos hlen, hscan]
      by_cases hp : p1 = 1
      · simp [hp]
      · simp [hp]
    rw [hdet]
    by_cases hp : p1 = 1
    · rw [if_pos hp]
      exact ⟨fun _ => hiff1.mp hp, fun _ => rfl⟩
    · rw [if_neg hp]
      constructor
      · intro hcontra
        exact absurd hcontra (by decide)
      · intro hmin1
        exact absurd (hiff1.mpr hmin1) hp
  · intro threshold k ps hk
    have h0 : ¬([(k, ps)] = ([] : List (Nat × List Nat))) := by simp
    unfold detect_numbering_type
    rw [if_neg h0]
    have hlen : ¬(2 ≤ ([(k, ps)] : List (Nat × List Nat)).length) := by simp
    rw [if_neg hlen]
    simp [hk]
  · intro threshold ps
    have h0 : ¬([(1, ps)] = ([] : List (Nat × List Nat))) := by simp
    unfold detect_numbering_type
    rw [if_neg h0]
    have hlen : ¬(2 ≤ ([(1, ps)] : List (Nat × List Nat)).length) := by simp
    rw [if_neg hlen]
    have hhead : ¬(([(1, ps)] : List (Nat × List Nat)).length = 1 ∧
        1 < (([(1, ps)] : List (Nat × List Nat)).map Prod.fst).headD 0) := by
      simp
    rw [if_neg hhead]
    have hget1 : chaptersGet [(1, ps)] 1 = ps := by
      simp [chaptersGet, List.find?]
    rw [hget1]
    by_cases ht : threshold ≤ ps.length
    · rw [if_pos ht]
      exact ⟨fun _ => ht, fun _ => rfl⟩
    · rw [if_neg ht]
      constructor
      · intro hcontra
        exact absurd hcontra (by decide)
      · intro hcontra
        exact absurd hcontra ht

/-- Claim C9, witness for the amended theorem: the lowest-deciding-chapter
rule applied to the two-chapter example yields relative. -/
theorem detect_numbering_type_rules_witness :
    detect_numbering_type [(1, [1, 2]), (2, [1, 2])] 8 = "relative" :=
  (detect_numbering_type_rules.2.1 [(1, [1, 2]), (2, [1, 2])] 8 2 [1, 2]
    (by decide) (by decide) (by decide) (by decide) (by decide)
    (by
      intro k' ps' hmem h1 hne
      rcases List.mem_cons.mp hmem with he | hmem'
      · cases he
        omega
      · rcases List.mem_cons.mp hmem' with he | hmem''
        · cases he
          omega
        · cases hmem'')).mpr (by decide)
